import Mathlib

/-
Verification of the STAC (SpatioTemporal Asset Catalog) resolution core of this
repository: the Item resolver (io/private/stac/Item.cpp) and the Catalog walker
(io/private/stac/Catalog.cpp).

The JSON document model mirrors nlohmann::json: a value carries one of the tags
null / string / number_integer / number_unsigned / number_float / boolean /
array / object.  Doubles are embedded as exact rationals; machine integer casts
are made explicit where the source performs them.  External collaborators that
the spec declares out of scope (the connector, the driver registry, std::regex,
the polygon engine, relative-path resolution from Utils) are supplied through an
explicit environment record of functions.  Error strings follow the source; the
quote characters that the C++ messages put around key names are elided.
-/

namespace StacSpec

/-- Value-kind tags, mirroring NL::detail::value_t of nlohmann::json. -/
inductive JType where
  | null
  | string
  | integer
  | unsigned
  | float
  | boolean
  | array
  | object
deriving DecidableEq

/-- JSON tree, mirroring nlohmann::json.  Objects are association lists with
unique keys (nlohmann stores them in a std::map; no claim depends on key
iteration order).  number_float is embedded as the exact rational value of the
double. -/
inductive JVal where
  | null
  | str (s : String)
  | int (i : Int)
  | uint (n : Nat)
  | float (q : Rat)
  | boolean (b : Bool)
  | arr (xs : List JVal)
  | obj (kvs : List (String × JVal))

/-- Tag of a value, as NL::json::type(). -/
def JVal.typeOf : JVal → JType
  | .null => .null
  | .str _ => .string
  | .int _ => .integer
  | .uint _ => .unsigned
  | .float _ => .float
  | .boolean _ => .boolean
  | .arr _ => .array
  | .obj _ => .object

/-- Association-list lookup used by the object operations. -/
def lookupKey : List (String × JVal) → String → Option JVal
  | [], _ => none
  | (k, v) :: rest, key => if k == key then some v else lookupKey rest key

/-- Mirror of json::contains: keys are only found on objects; on every other
value kind (arrays included) nlohmann returns false. -/
def jContains : JVal → String → Bool
  | .obj kvs, key => (lookupKey kvs key).isSome
  | _, _ => false

/-- Mirror of json::at(key): throws key-not-found on a missing key and a type
error when invoked on a non-object. -/
def jAt : JVal → String → Except String JVal
  | .obj kvs, key =>
      match lookupKey kvs key with
      | some v => .ok v
      | none => .error ("key " ++ key ++ " not found")
  | _, _ => .error "cannot use at with this value kind"

/-- Total variant of json::at(key), used only where a preceding contains check
made the key presence certain. -/
def jAtD (v : JVal) (key : String) : JVal :=
  match v with
  | .obj kvs => (lookupKey kvs key).getD .null
  | _ => .null

/-- Mirror of json array operator[] with an index.  Out-of-range access is
undefined behaviour in the source; every use below is guarded by a size check,
so the default is never observable. -/
def jIdx (v : JVal) (i : Nat) : JVal :=
  match v with
  | .arr xs => xs.getD i .null
  | _ => .null

/-- Mirror of json::size(): element count for arrays and objects, 0 for null,
1 for scalars. -/
def jSize : JVal → Nat
  | .null => 0
  | .arr xs => xs.length
  | .obj kvs => kvs.length
  | _ => 1

/-- Mirror of json::empty(): true for null and zero-sized arrays and objects. -/
def jEmpty : JVal → Bool
  | .null => true
  | .arr xs => xs.isEmpty
  | .obj kvs => kvs.isEmpty
  | _ => false

/-- Mirror of range-for iteration over a json value: elements of an array,
values of an object, nothing for null, the value itself for scalars. -/
def jElems : JVal → List JVal
  | .arr xs => xs
  | .obj kvs => kvs.map Prod.snd
  | .null => []
  | x => [x]

/-- Mirror of json::items() iteration, used on objects (and null, which yields
an empty range). -/
def jItems : JVal → List (String × JVal)
  | .obj kvs => kvs
  | _ => []

/-- Key update for objects, mirroring json operator[] assignment; assigning
into a null value first turns it into an object. -/
def setKeyList : List (String × JVal) → String → JVal → List (String × JVal)
  | [], key, v => [(key, v)]
  | (k, w) :: rest, key, v =>
      if k == key then (k, v) :: rest else (k, w) :: setKeyList rest key v

def jSetKey (j : JVal) (key : String) (v : JVal) : JVal :=
  match j with
  | .obj kvs => .obj (setKeyList kvs key v)
  | .null => .obj [(key, v)]
  | other => other

/-- Two-level update readerArgs[driver][key] = v, as in handleReaderArgs. -/
def jSetKey2 (j : JVal) (driver key : String) (v : JVal) : JVal :=
  jSetKey j driver (jSetKey (jAtD j driver) key v)

/-- Mirror of get of std::string: only a string converts. -/
def getStr : JVal → Except String String
  | .str s => .ok s
  | _ => .error "type must be string"

/-- Total variant of getStr for positions where the tag was already matched. -/
def getStrD : JVal → String
  | .str s => s
  | _ => ""

/-- C++ double-to-integer conversion truncates toward zero. -/
def cppTrunc (q : Rat) : Int := Int.tdiv q.num q.den

/-- Wrap of an integer into the value range of a 32-bit signed int, as a
static_cast to int does for in-range values (out of range is UB in C++; the
wrap is a conventional total model of it). -/
def toInt32 (i : Int) : Int := (i + 2 ^ 31) % 2 ^ 32 - 2 ^ 31

/-- Mirror of get of double: any of the three number kinds converts. -/
def asDouble : JVal → Except String Rat
  | .float q => .ok q
  | .int i => .ok (i : Rat)
  | .uint n => .ok (n : Rat)
  | _ => .error "type must be number"

/-- Total variant of asDouble. -/
def asDoubleD : JVal → Rat
  | .float q => q
  | .int i => (i : Rat)
  | .uint n => (n : Rat)
  | _ => 0

/-- Mirror of get of int (32-bit): number kinds convert with a truncating
cast. -/
def asInt32 : JVal → Except String Int
  | .int i => .ok (toInt32 i)
  | .uint n => .ok (toInt32 n)
  | .float q => .ok (toInt32 (cppTrunc q))
  | _ => .error "type must be number"

/-- Total variant of asInt32. -/
def asInt32D : JVal → Int
  | .int i => toInt32 i
  | .uint n => toInt32 n
  | .float q => toInt32 (cppTrunc q)
  | _ => 0

/-- Mirror of get of uint64_t: number kinds convert, wrapping mod 2 ^ 64. -/
def asUInt64 : JVal → Except String Nat
  | .uint n => .ok (n % 2 ^ 64)
  | .int i => .ok ((i % 2 ^ 64).toNat)
  | .float q => .ok ((cppTrunc q % 2 ^ 64).toNat)
  | _ => .error "type must be number"

/-- Mirror of get of bool: only a boolean converts. -/
def getBool : JVal → Except String Bool
  | .boolean b => .ok b
  | _ => .error "type must be boolean"

/-- Lexicographic character-list order: the comparison std::string performs. -/
def lexLe : List Char → List Char → Bool
  | [], _ => true
  | _ :: _, [] => false
  | a :: as, b :: bs => a.toNat < b.toNat || (a.toNat == b.toNat && lexLe as bs)

/-- Mirror of operator<= on std::string (byte-lexicographic; the date strings
compared in the filter are ASCII, where bytes and code points agree). -/
def strLeB (a b : String) : Bool := lexLe a.data b.data

/-- Mirror of Utils::iequals: case-insensitive string equality. -/
def iequals (a b : String) : Bool := a.toLower == b.toLower

/-- Boolean success test for a computation that can raise. -/
def isOkE {α : Type} : Except String α → Bool
  | .ok _ => true
  | .error _ => false

/-- Modelled from the spec: pdal::BOX2D (the PDAL geometry sources are not part
of the corpus).  Coordinates are exact rationals standing for the doubles. -/
structure BOX2D where
  minx : Rat
  miny : Rat
  maxx : Rat
  maxy : Rat

/-- Modelled from the spec: pdal::BOX3D. -/
structure BOX3D where
  minx : Rat
  miny : Rat
  minz : Rat
  maxx : Rat
  maxy : Rat
  maxz : Rat

/-- Modelled from the spec: BOX2D::overlaps tests non-disjointness and counts
touching boxes as overlapping (closed intervals on each axis). -/
def BOX2D.overlaps (a b : BOX2D) : Bool :=
  decide (a.minx ≤ b.maxx) && decide (b.minx ≤ a.maxx) &&
  decide (a.miny ≤ b.maxy) && decide (b.miny ≤ a.maxy)

/-- Modelled from the spec: BOX3D::overlaps, the 3D analogue. -/
def BOX3D.overlaps (a b : BOX3D) : Bool :=
  decide (a.minx ≤ b.maxx) && decide (b.minx ≤ a.maxx) &&
  decide (a.miny ≤ b.maxy) && decide (b.miny ≤ a.maxy) &&
  decide (a.minz ≤ b.maxz) && decide (b.minz ≤ a.maxz)

/-- Modelled from the spec: promotion of a 2D box to a 3D box with a degenerate
z-range (no claim exercises the z extension of a 2D box). -/
def box3ofBox2 (b : BOX2D) : BOX3D :=
  ⟨b.minx, b.miny, 0, b.maxx, b.maxy, 0⟩

/-- Modelled from the spec: the user-supplied bounds option (pdal SrsBounds):
absent, a 2D box, or a 3D box.  The spatial reference transform is carried out
by the out-of-scope geometry engine and is not modelled. -/
inductive SrsBounds where
  | none
  | box2 (b : BOX2D)
  | box3 (b : BOX3D)

def SrsBounds.isEmptyB : SrsBounds → Bool
  | .none => true
  | _ => false

def SrsBounds.is3d : SrsBounds → Bool
  | .box3 _ => true
  | _ => false

def SrsBounds.to2d : SrsBounds → BOX2D
  | .box2 b => b
  | .box3 b => ⟨b.minx, b.miny, b.maxx, b.maxy⟩
  | .none => ⟨0, 0, 0, 0⟩

def SrsBounds.to3d : SrsBounds → BOX3D
  | .box3 b => b
  | .box2 b => box3ofBox2 b
  | .none => ⟨0, 0, 0, 0, 0, 0⟩

/-- Schema document locations (Utils.hpp SchemaUrls); carried through init and
otherwise unused here because schema validation is performed by the external
validator engine. -/
structure SchemaUrls where
  catalog : String := ""
  collection : String := ""
  item : String := ""

/-- Environment of external collaborators, each declared out of scope by the
spec and injected here as a function:
  - inferReaderDriver: the driver registry (StageFactory::inferReaderDriver);
  - headRequest: the connector HEAD request, returning response headers or
    raising;
  - handleRelativePath: Utils relative-URL resolution (Modelled from the spec:
    the Utils sources are not part of the corpus; the spec says the asset path
    is converted to an absolute location relative to the hosting document);
  - polyValid / polyBounds: the geometry engine view of a GeoJSON geometry
    (pdal::Polygon validity and bounds). -/
structure Env where
  inferReaderDriver : String → String
  headRequest : String → Except String (List (String × String))
  handleRelativePath : String → String → String
  polyValid : JVal → Bool
  polyBounds : JVal → BOX3D

/-- Item-level filter set (Filters.hpp is not part of the corpus; fields are
reconstructed from their uses in Item.cpp and from the spec).  Compiled
std::regex patterns are embedded as their full-match predicates. -/
structure ItemFilters where
  ids : List (String → Bool)
  collections : List (String → Bool)
  dates : List JVal
  properties : JVal
  bounds : SrsBounds
  assetNames : List String

/-- Mirror of the free function validateForFilter (Item.cpp).  Note the source
condition on geometry and bbox is a disjunction of negations, so the check
throws unless both keys are present. -/
def validateForFilter (json : JVal) : Except String Unit := do
  if !(jContains json "id") then
    .error "JSON object does not contain required key id"
  else do
    let id ← getStr (← jAt json "id")
    if !(jContains json "assets") then
      .error ("JSON Object of id " ++ id ++ " does not contain required key assets")
    else if !(jContains json "properties") then
      .error ("JSON object " ++ id ++ " does not contain required key properties")
    else if !(jContains json "geometry") || !(jContains json "bbox") then
      .error ("JSON object " ++ id ++ " does not contain one of geometry or bbox")
    else
      let prop := jAtD json "properties"
      if !(jContains prop "datetime") &&
          (!(jContains prop "start_datetime") && !(jContains prop "end_datetime")) then
        .error ("JSON object " ++ id ++
          "  properties value not contain required key datetime or start_datetime and end_datetime")
      else
        .ok ()

/-- Mirror of the free function matchProperty (Item.cpp).  The dispatch tag is
the value kind of the item property.  In the number_float case the source
declares both locals as int, so the two doubles are truncated before they are
compared. -/
def matchProperty (key : String) (val : JVal) (properties : JVal) (type : JType) :
    Except String Bool :=
  match type with
  | .string => do
      let desired ← getStr val
      let value ← getStr (← jAt properties key)
      .ok (value == desired)
  | .unsigned => do
      let value ← asUInt64 (← jAt properties key)
      let desired ← asUInt64 val
      .ok (value == desired)
  | .integer => do
      let value ← asInt32 (← jAt properties key)
      let desired ← asInt32 val
      .ok (value == desired)
  | .float => do
      let value := cppTrunc (← asDouble (← jAt properties key))
      let desired := cppTrunc (← asDouble val)
      .ok (value == desired)
  | .boolean => do
      let value ← getBool (← jAt properties key)
      let desired ← getBool val
      .ok (value == desired)
  | _ => .error ("Data type of " ++ key ++ " is not supported for pruning.")

/-- Content-type lookup table of Item::extractDriverFromItem. -/
def contentTypes : List (String × String) :=
  [("application/vnd.laszip+copc", "readers.copc")]

/-- Mirror of Item::extractDriverFromItem: declared content type first, then
the driver registry on the resolved URL, then a HEAD request content type;
an empty string when nothing resolves. -/
def extractDriverFromItem (env : Env) (m_path : String) (asset : JVal) :
    Except String String := do
  if !(jContains asset "href") then
    .error "asset does not contain an href!"
  else do
    let assetPath ← getStr (← jAt asset "href")
    let dataUrl := env.handleRelativePath m_path assetPath
    let fromDeclared ←
      if jContains asset "type" then do
        let contentType ← getStr (← jAt asset "type")
        pure (contentTypes.findSome? fun ct =>
          if iequals ct.1 contentType then some ct.2 else Option.none)
      else
        pure Option.none
    match fromDeclared with
    | some d => .ok d
    | none =>
      let driver := env.inferReaderDriver dataUrl
      if driver.length != 0 then
        .ok driver
      else do
        let headers ← env.headRequest dataUrl
        match headers.lookup "Content-Type" with
        | some contentType =>
            .ok ((contentTypes.findSome? fun ct =>
              if iequals ct.1 contentType then some ct.2 else Option.none).getD "")
        | none => .ok ""

/-- Processing of one present asset name inside the asset loop of Item::filter:
driver extraction plus absolute-path resolution of the href. -/
def resolveOneAsset (env : Env) (m_path : String) (assets : JVal) (name : String) :
    Except String (String × String) := do
  let asset := jAtD assets name
  let driver ← extractDriverFromItem env m_path asset
  let assetPath ← getStr (← jAt asset "href")
  .ok (driver, env.handleRelativePath m_path assetPath)

/-- Mirror of the asset-name loop at the head of Item::filter.  The loop has no
break: every candidate name present in assets overwrites m_driver and
m_assetPath, so the final state is that of the last present name.  Both members
start out as empty strings. -/
def resolveAsset (env : Env) (m_path : String) (assets : JVal)
    (assetNames : List String) : Except String (String × String) :=
  assetNames.foldlM
    (fun acc name =>
      if jContains assets name then resolveOneAsset env m_path assets name
      else .ok acc)
    ("", "")

/-- Loop body of the datetime branch of the date filter: one user range is
checked for containing the item instant; the flag, once lowered, stays down. -/
def dateStepSingle (stacDate : String) (dateFlag : Bool) (range : JVal) :
    Except String Bool := do
  if jSize range != 2 then
    .error "Invalid date range size!"
  else do
    let lo ← getStr (jIdx range 0)
    let hi ← getStr (jIdx range 1)
    .ok (if strLeB lo stacDate && strLeB stacDate hi then false else dateFlag)

/-- Loop body of the start/end branch of the date filter: the four-way overlap
test of one user range against the item interval. -/
def dateStepRange (stacStartDate stacEndDate : String) (dateFlag : Bool)
    (range : JVal) : Except String Bool := do
  if jSize range != 2 then
    .error "Invalid date range size!"
  else do
    let userMinDate ← getStr (jIdx range 0)
    let userMaxDate ← getStr (jIdx range 1)
    if strLeB stacStartDate userMinDate && strLeB userMinDate stacEndDate then
      .ok false
    else if strLeB stacStartDate userMaxDate && strLeB userMaxDate stacEndDate then
      .ok false
    else if strLeB userMinDate stacStartDate && strLeB stacEndDate userMaxDate then
      .ok false
    else
      .ok dateFlag

/-- Mirror of the DateTime block of Item::filter (lines 405-470).  Returns the
prune decision of the block: true means the item is pruned on dates.  The block
runs only when the filter list is non-empty; the item instant is used only when
the datetime property is present and not null; otherwise the start/end pair is
used only when both are present; otherwise the block is skipped. -/
def dateSection (dates : List JVal) (properties : JVal) : Except String Bool :=
  if dates.isEmpty then
    .ok false
  else if jContains properties "datetime" &&
      !((jAtD properties "datetime").typeOf == JType.null) then do
    let stacDate ← getStr (jAtD properties "datetime")
    let dateFlag := true
    let dateFlag := if dates.isEmpty then false else dateFlag
    let dateFlag ← dates.foldlM (dateStepSingle stacDate) dateFlag
    .ok dateFlag
  else if jContains properties "start_datetime" &&
      jContains properties "end_datetime" then do
    let stacStartDate ← getStr (jAtD properties "start_datetime")
    let stacEndDate ← getStr (jAtD properties "end_datetime")
    let dateFlag ← dates.foldlM (dateStepRange stacStartDate stacEndDate) true
    .ok dateFlag
  else
    .ok false

/-- Mirror of the Properties block of Item::filter (lines 472-498): conjunctive
over the filter keys, disjunctive inside an array value, with early return on
the first failing key. -/
def propertyLoop (properties : JVal) : List (String × JVal) → Except String Bool
  | [] => .ok false
  | (key, val) :: rest => do
      let pv ← jAt properties key
      let type := pv.typeOf
      let argType := val.typeOf
      if argType == JType.array then do
        let arrFlag ← (jElems val).foldlM
          (fun arrFlag v => do
            let m ← matchProperty key v properties type
            pure (if m then false else arrFlag))
          true
        if arrFlag then .ok true else propertyLoop properties rest
      else do
        let m ← matchProperty key val properties type
        if !m then .ok true else propertyLoop properties rest

def propertySection (filterProps : JVal) (properties : JVal) : Except String Bool :=
  if !(jEmpty filterProps) then propertyLoop properties (jItems filterProps)
  else .ok false

/-- Mirror of the bbox block of Item::filter (lines 500-574).  Note the size
guard on the bbox array rejects every size: size 4 fails the inequality with 6
and size 6 fails the inequality with 4, so the branch always raises and the
two overlap tests behind it are unreachable. -/
def boundsSection (env : Env) (bounds : SrsBounds) (itemId : String)
    (m_json : JVal) : Except String Bool :=
  if bounds.isEmptyB then
    .ok false
  else if jContains m_json "geometry" then
    let geometry := jAtD m_json "geometry"
    if !(env.polyValid geometry) then
      .error ("Polygon created from STAC geometry key for " ++ itemId ++ " is invalid")
    else if bounds.is3d then
      .ok (!(bounds.to3d.overlaps (env.polyBounds geometry)))
    else
      .ok (!((box3ofBox2 bounds.to2d).overlaps (env.polyBounds geometry)))
  else if jContains m_json "bbox" then
    let bboxJson := jAtD m_json "bbox"
    if jSize bboxJson != 4 || jSize bboxJson != 6 then
      .error ("bbox for " ++ itemId ++ " is not valid")
    else if jSize bboxJson == 4 then
      let bbox := BOX2D.mk (asDoubleD (jIdx bboxJson 0)) (asDoubleD (jIdx bboxJson 1))
        (asDoubleD (jIdx bboxJson 2)) (asDoubleD (jIdx bboxJson 3))
      .ok (!(bounds.to2d.overlaps bbox))
    else if jSize bboxJson == 6 then
      let bbox := BOX3D.mk (asDoubleD (jIdx bboxJson 0)) (asDoubleD (jIdx bboxJson 1))
        (asDoubleD (jIdx bboxJson 2)) (asDoubleD (jIdx bboxJson 3))
        (asDoubleD (jIdx bboxJson 4)) (asDoubleD (jIdx bboxJson 5))
      .ok (!(bounds.to3d.overlaps bbox))
    else
      .ok false
  else
    .ok false

/-- Mirror of Item::filter.  Polarity is the source polarity: the returned Bool
is true when the item is pruned (rejected).  The pair carries the m_driver and
m_assetPath members the function writes while running. -/
def Item.filter (env : Env) (filters : ItemFilters) (m_json : JVal)
    (m_path : String) : Except String (Bool × String × String) := do
  validateForFilter m_json
  let (m_driver, m_assetPath) ←
    resolveAsset env m_path (jAtD m_json "assets") filters.assetNames
  if m_driver.isEmpty then
    .ok (true, m_driver, m_assetPath)
  else do
    let itemId ← getStr (← jAt m_json "id")
    let idFlag :=
      if !filters.ids.isEmpty then !(filters.ids.any fun r => r itemId)
      else false
    if idFlag then
      .ok (true, m_driver, m_assetPath)
    else do
      if !filters.collections.isEmpty && !(jContains m_json "collection") then
        .ok (true, m_driver, m_assetPath)
      else do
        let colFlag ←
          if !filters.collections.isEmpty then do
            let colId ← getStr (← jAt m_json "collection")
            pure (!(filters.collections.any fun r => r colId))
          else
            pure false
        if colFlag then
          .ok (true, m_driver, m_assetPath)
        else do
          let properties := jAtD m_json "properties"
          let datePrune ← dateSection filters.dates properties
          if datePrune then
            .ok (true, m_driver, m_assetPath)
          else do
            let propPrune ← propertySection filters.properties properties
            if propPrune then
              .ok (true, m_driver, m_assetPath)
            else do
              let boundsPrune ← boundsSection env filters.bounds itemId m_json
              if boundsPrune then
                .ok (true, m_driver, m_assetPath)
              else
                .ok (false, m_driver, m_assetPath)

/-- Value of one reader option (pdal Options entry), tagged by the source
branch of Item::setReaderOptions that produced it.  The number_float branch
performs a get of float in the source; the narrowing from double to single
precision is not modelled (no claim depends on it). -/
inductive OptVal where
  | str (s : String)
  | flt (q : Rat)
  | int (i : Int)
  | boolean (b : Bool)
  | json (v : JVal)

/-- Mirror of Item::handleReaderArgs.  A lone object is wrapped into a
one-element array; every element must be an object carrying a type key.  The
duplicate-driver guard of the source tests rawReaderArgs.contains(driver), but
at that point rawReaderArgs is always an array (never an object), and
json::contains returns false on every non-object value, so the guard can never
fire. -/
def handleReaderArgs (m_driver : String) (rawReaderArgs : JVal) :
    Except String JVal := do
  let rawReaderArgs :=
    if rawReaderArgs.typeOf == JType.object then JVal.arr [rawReaderArgs]
    else rawReaderArgs
  if (jElems rawReaderArgs).any (fun opts => !(opts.typeOf == JType.object)) then
    .error ("Reader Args for reader " ++ m_driver ++ " must be a valid JSON object")
  else
    (jElems rawReaderArgs).foldlM
      (fun readerArgs readerPipeline => do
        if !(jContains readerPipeline "type") then
          .error "No type key found in supplied reader arguments."
        else do
          let driver ← getStr (← jAt readerPipeline "type")
          if jContains rawReaderArgs driver then
            .error "Multiple instances of the same driver in supplied reader arguments."
          else
            let readerArgs := jSetKey readerArgs driver JVal.null
            let readerArgs := (jItems readerPipeline).foldl
              (fun ra arg =>
                if arg.1 == "type" then ra
                else jSetKey2 ra driver arg.1 arg.2)
              readerArgs
            .ok readerArgs)
      JVal.null

/-- Total variant of getBool for positions where the tag was already matched. -/
def getBoolD : JVal → Bool
  | .boolean b => b
  | _ => false

/-- Mirror of Item::setReaderOptions: the argument group of the resolved driver
is converted entry by entry, dispatching on the json value kind.  Note the
switch has cases for string, number_float, number_integer and boolean only, so
a number_unsigned value falls to the default branch and is added as a raw json
value. -/
def setReaderOptions (readerArgs : JVal) (driver : String) :
    List (String × OptVal) :=
  if jContains readerArgs driver then
    (jItems (jAtD readerArgs driver)).foldl
      (fun opts arg =>
        match arg.2.typeOf with
        | JType.string => opts ++ [(arg.1, OptVal.str (getStrD arg.2))]
        | JType.float => opts ++ [(arg.1, OptVal.flt (asDoubleD arg.2))]
        | JType.integer => opts ++ [(arg.1, OptVal.int (asInt32D arg.2))]
        | JType.boolean => opts ++ [(arg.1, OptVal.boolean (getBoolD arg.2))]
        | _ => opts ++ [(arg.1, OptVal.json arg.2)])
      []
  else []

/-- Member state of one stac::Item object. -/
structure ItemState where
  m_json : JVal := JVal.null
  m_path : String := ""
  m_driver : String := ""
  m_assetPath : String := ""
  m_schemaUrls : SchemaUrls := {}
  m_readerOptions : List (String × OptVal) := []

/-- Mirror of Item::init.  The filter runs first (writing m_driver and
m_assetPath); a pruned item reports false.  Schema validation is gated on the
m_validate flag, held false here (the validator engine is an external
collaborator).  On acceptance the reader arguments are merged, converted into
options, and the resolved asset path is appended as the filename option. -/
def Item.init (env : Env) (filters : ItemFilters) (rawReaderArgs : JVal)
    (schemaUrls : SchemaUrls) (st : ItemState) : Except String (Bool × ItemState) := do
  let (prune, d, ap) ← Item.filter env filters st.m_json st.m_path
  let st := { st with m_driver := d, m_assetPath := ap }
  if prune then
    .ok (false, st)
  else do
    let st := { st with m_schemaUrls := schemaUrls }
    let readerArgs ← handleReaderArgs st.m_driver rawReaderArgs
    let opts := setReaderOptions readerArgs st.m_driver
    let opts := opts ++ [("filename", OptVal.str st.m_assetPath)]
    .ok (true, { st with m_readerOptions := opts })

/-- Mirror of the Item copy constructor.  Its initializer list copies m_json,
m_path, the connector reference, m_driver, m_schemaUrls and m_readerOptions;
m_assetPath is absent from the list, so the copy gets a default-constructed
(empty) asset path. -/
def Item.copy (item : ItemState) : ItemState :=
  { m_json := item.m_json, m_path := item.m_path, m_driver := item.m_driver,
    m_schemaUrls := item.m_schemaUrls, m_readerOptions := item.m_readerOptions,
    m_assetPath := "" }

/-- Catalog-level filter set: the id patterns of this scope plus the shared
item-level sub-filters (the source Filters struct holds them through a
pointer; Filters.hpp is not part of the corpus, the shape follows its uses in
Catalog.cpp and the spec). -/
structure CatFilters where
  ids : List (String → Bool)
  itemFilters : ItemFilters

/-- Reachable link universe below one catalog node, with fetch outcomes baked
in: the connector is an external collaborator, so a link target is either the
document it fetches to or the failure the fetch raises.  Links are already
classified by their rel value and carry the absolute location the walker
computes; a rel outside item / catalog / collection makes the task a no-op.
Collection sub-nodes are walked like catalog sub-nodes (Collection.cpp is not
part of the corpus; spec section 4.3 specifies one init contract for both).
A value of this type is one link list, spelled as a cons chain ending in nilL;
the catalog and collection constructors carry the link list of the child node
they fetch to. -/
inductive CatTree where
  | nilL
  | itemLink (absPath : String) (doc : JVal) (rest : CatTree)
  | badLink (absPath : String) (msg : String) (rest : CatTree)
  | otherLink (rest : CatTree)
  | catalogLink (absPath : String) (id : String) (links : CatTree) (rest : CatTree)
  | collectionLink (absPath : String) (id : String) (links : CatTree) (rest : CatTree)

/-- Accumulator state of one Catalog node: the surviving items, the retained
child nodes, and the error list.  In the source all three are mutated under
the node mutex by pool tasks; the model records the same final contents, in
link order (one representative serialization; no claim depends on sibling
completion order). -/
structure CatResult where
  m_itemList : List ItemState
  m_subCatalogs : List CatResult
  m_errors : List (String × String)

/-- Mirror of Catalog::filter: accept when no id filter is configured or the
node is the root; otherwise accept iff the node id matches some pattern. -/
def Catalog.filter (filters : CatFilters) (m_root : Bool) (m_id : String) : Bool :=
  if filters.ids.isEmpty || m_root then true
  else filters.ids.any fun r => r m_id

/-- Mirror of Catalog::handleNested: splice the item list and error list of
each directly retained child node into this node.  The children themselves are
left as they are; the source never recurses into a grandchild list. -/
def Catalog.handleNested (r : CatResult) : CatResult :=
  { r with
    m_itemList := r.m_itemList ++ (r.m_subCatalogs.map fun c => c.m_itemList).flatten,
    m_errors := r.m_errors ++ (r.m_subCatalogs.map fun c => c.m_errors).flatten }

/-- Mirror of the per-link pool tasks of Catalog::init (lines 81-141), run over
the link list.  Each task body is wrapped in the catch-all of the source: an
exception from fetching or from per-item processing becomes one
(location, message) entry in the error list of this node and nothing else.  A
child catalog or collection runs its own init (not as root; its filter check is
the only way it declines) and is retained only on acceptance.  The accumulators
come out in link order, one representative serialization of the pool. -/
def runLinks (env : Env) (filters : CatFilters) (rawReaderArgs : JVal)
    (schemaUrls : SchemaUrls) : CatTree → CatResult
  | .nilL => ⟨[], [], []⟩
  | .itemLink absPath doc rest =>
      let r := runLinks env filters rawReaderArgs schemaUrls rest
      match Item.init env filters.itemFilters rawReaderArgs schemaUrls
          { m_json := doc, m_path := absPath } with
      | .ok (true, st) => { r with m_itemList := st :: r.m_itemList }
      | .ok (false, _) => r
      | .error msg => { r with m_errors := (absPath, msg) :: r.m_errors }
  | .badLink absPath msg rest =>
      let r := runLinks env filters rawReaderArgs schemaUrls rest
      { r with m_errors := (absPath, msg) :: r.m_errors }
  | .otherLink rest => runLinks env filters rawReaderArgs schemaUrls rest
  | .catalogLink _ id links rest =>
      let r := runLinks env filters rawReaderArgs schemaUrls rest
      if Catalog.filter filters false id then
        { r with m_subCatalogs :=
            runLinks env filters rawReaderArgs schemaUrls links :: r.m_subCatalogs }
      else r
  | .collectionLink _ id links rest =>
      let r := runLinks env filters rawReaderArgs schemaUrls rest
      if Catalog.filter filters false id then
        { r with m_subCatalogs :=
            runLinks env filters rawReaderArgs schemaUrls links :: r.m_subCatalogs }
      else r

/-- Mirror of Catalog::init: filter this node (root nodes are exempt), enqueue
one task per link, and, only at the root, drain the pool and aggregate the
retained children through handleNested.  The pool drain is the global barrier
of the source; by the time it returns every transitively enqueued task has
completed, which the sequential model reflects by having runLinks return only
completed subtree results.  none models a false return (node filtered out). -/
def Catalog.init (env : Env) (filters : CatFilters) (rawReaderArgs : JVal)
    (schemaUrls : SchemaUrls) (isRoot : Bool) (m_id : String)
    (links : CatTree) : Option CatResult :=
  if !(Catalog.filter filters isRoot m_id) then
    Option.none
  else
    let r := runLinks env filters rawReaderArgs schemaUrls links
    if isRoot then some (Catalog.handleNested r) else some r

/-- Modelled from the spec: the list of Items accepted anywhere in a catalog
tree, collected transitively through every sub-catalog and sub-collection that
passes the catalog id filter (the fan-out and aggregation contract of spec
sections 1 and 4.3).  This is the spec-side reference that the nested
aggregation of the walker is compared against. -/
def specAcceptedItems (env : Env) (filters : CatFilters) (rawReaderArgs : JVal)
    (schemaUrls : SchemaUrls) : CatTree → List ItemState
  | .nilL => []
  | .itemLink absPath doc rest =>
      (match Item.init env filters.itemFilters rawReaderArgs schemaUrls
          { m_json := doc, m_path := absPath } with
        | .ok (true, st) => [st]
        | _ => []) ++
      specAcceptedItems env filters rawReaderArgs schemaUrls rest
  | .catalogLink _ id links rest =>
      (if Catalog.filter filters false id then
        specAcceptedItems env filters rawReaderArgs schemaUrls links
      else []) ++
      specAcceptedItems env filters rawReaderArgs schemaUrls rest
  | .collectionLink _ id links rest =>
      (if Catalog.filter filters false id then
        specAcceptedItems env filters rawReaderArgs schemaUrls links
      else []) ++
      specAcceptedItems env filters rawReaderArgs schemaUrls rest
  | .badLink _ _ rest => specAcceptedItems env filters rawReaderArgs schemaUrls rest
  | .otherLink rest => specAcceptedItems env filters rawReaderArgs schemaUrls rest

/-- Number of links in a link list. -/
def linkCount : CatTree → Nat
  | .nilL => 0
  | .itemLink _ _ rest => 1 + linkCount rest
  | .badLink _ _ rest => 1 + linkCount rest
  | .otherLink rest => 1 + linkCount rest
  | .catalogLink _ _ _ rest => 1 + linkCount rest
  | .collectionLink _ _ _ rest => 1 + linkCount rest

/-- True when every link of the list is an item task: a fetched item link or a
link whose target fetch raised (the shape the error-isolation claim quantifies
over). -/
def allItemTasks : CatTree → Bool
  | .nilL => true
  | .itemLink _ _ rest => allItemTasks rest
  | .badLink _ _ rest => allItemTasks rest
  | _ => false

/-- Number of links whose task ends in the catch block: the target fetch
raised, or the per-item processing raised. -/
def raisesCount (env : Env) (filters : CatFilters) (rawReaderArgs : JVal)
    (schemaUrls : SchemaUrls) : CatTree → Nat
  | .itemLink absPath doc rest =>
      (if isOkE (Item.init env filters.itemFilters rawReaderArgs schemaUrls
          { m_json := doc, m_path := absPath }) then 0 else 1) +
      raisesCount env filters rawReaderArgs schemaUrls rest
  | .badLink _ _ rest => 1 + raisesCount env filters rawReaderArgs schemaUrls rest
  | .otherLink rest => raisesCount env filters rawReaderArgs schemaUrls rest
  | .catalogLink _ _ _ rest => raisesCount env filters rawReaderArgs schemaUrls rest
  | .collectionLink _ _ _ rest => raisesCount env filters rawReaderArgs schemaUrls rest
  | .nilL => 0

/-- Number of links processed to a normal accepted-or-rejected outcome. -/
def normalCount (env : Env) (filters : CatFilters) (rawReaderArgs : JVal)
    (schemaUrls : SchemaUrls) : CatTree → Nat
  | .itemLink absPath doc rest =>
      (if isOkE (Item.init env filters.itemFilters rawReaderArgs schemaUrls
          { m_json := doc, m_path := absPath }) then 1 else 0) +
      normalCount env filters rawReaderArgs schemaUrls rest
  | .badLink _ _ rest => normalCount env filters rawReaderArgs schemaUrls rest
  | .otherLink rest => normalCount env filters rawReaderArgs schemaUrls rest
  | .catalogLink _ _ _ rest => normalCount env filters rawReaderArgs schemaUrls rest
  | .collectionLink _ _ _ rest => normalCount env filters rawReaderArgs schemaUrls rest
  | .nilL => 0

/-- The accepted items a list of item tasks contributes, in link order. -/
def acceptedOf (env : Env) (filters : CatFilters) (rawReaderArgs : JVal)
    (schemaUrls : SchemaUrls) : CatTree → List ItemState
  | .itemLink absPath doc rest =>
      (match Item.init env filters.itemFilters rawReaderArgs schemaUrls
          { m_json := doc, m_path := absPath } with
        | .ok (true, st) => [st]
        | _ => []) ++
      acceptedOf env filters rawReaderArgs schemaUrls rest
  | .badLink _ _ rest => acceptedOf env filters rawReaderArgs schemaUrls rest
  | .otherLink rest => acceptedOf env filters rawReaderArgs schemaUrls rest
  | .catalogLink _ _ _ rest => acceptedOf env filters rawReaderArgs schemaUrls rest
  | .collectionLink _ _ _ rest => acceptedOf env filters rawReaderArgs schemaUrls rest
  | .nilL => []

/-- The error entries a list of item tasks contributes, in link order. -/
def errorEntriesOf (env : Env) (filters : CatFilters) (rawReaderArgs : JVal)
    (schemaUrls : SchemaUrls) : CatTree → List (String × String)
  | .itemLink absPath doc rest =>
      (match Item.init env filters.itemFilters rawReaderArgs schemaUrls
          { m_json := doc, m_path := absPath } with
        | .error msg => [(absPath, msg)]
        | _ => []) ++
      errorEntriesOf env filters rawReaderArgs schemaUrls rest
  | .badLink absPath msg rest =>
      (absPath, msg) :: errorEntriesOf env filters rawReaderArgs schemaUrls rest
  | .otherLink rest => errorEntriesOf env filters rawReaderArgs schemaUrls rest
  | .catalogLink _ _ _ rest => errorEntriesOf env filters rawReaderArgs schemaUrls rest
  | .collectionLink _ _ _ rest => errorEntriesOf env filters rawReaderArgs schemaUrls rest
  | .nilL => []

/-- Sample environment: the driver registry resolves every url to readers.las,
HEAD requests succeed with no headers, relative resolution returns the href
unchanged, and geometries are valid with a unit-box footprint. -/
def sampleEnv : Env :=
  { inferReaderDriver := fun _ => "readers.las"
    headRequest := fun _ => .ok []
    handleRelativePath := fun _ p => p
    polyValid := fun _ => true
    polyBounds := fun _ => ⟨0, 0, 0, 1, 1, 1⟩ }

/-- Environment whose driver registry distinguishes the two sample hrefs. -/
def twoDriverEnv : Env :=
  { sampleEnv with inferReaderDriver := fun u => if u == "h1" then "drvA" else "drvB" }

/-- Accept-all item filter set looking for the asset named data. -/
def emptyItemFilters : ItemFilters :=
  { ids := [], collections := [], dates := [], properties := JVal.null,
    bounds := SrsBounds.none, assetNames := ["data"] }

/-- Accept-all catalog filter set. -/
def emptyCatFilters : CatFilters :=
  { ids := [], itemFilters := emptyItemFilters }

/-- A structurally complete item document (it carries both geometry and bbox,
which the validation of this code base requires) whose data asset resolves. -/
def goodItemDoc : JVal := JVal.obj
  [("id", JVal.str "itemA"),
   ("assets", JVal.obj [("data", JVal.obj [("href", JVal.str "a.las")])]),
   ("properties", JVal.obj [("datetime", JVal.str "2020-01-01T00:00:00Z")]),
   ("geometry", JVal.obj [("type", JVal.str "Point")]),
   ("bbox", JVal.arr [JVal.uint 0, JVal.uint 0, JVal.uint 1, JVal.uint 1])]

/-- A structurally complete item document none of whose asset names is looked
for, so driver resolution comes up empty and the item is rejected silently. -/
def rejectedItemDoc : JVal := JVal.obj
  [("id", JVal.str "itemR"),
   ("assets", JVal.obj [("other", JVal.obj [("href", JVal.str "r.las")])]),
   ("properties", JVal.obj [("datetime", JVal.str "2020-01-01T00:00:00Z")]),
   ("geometry", JVal.obj [("type", JVal.str "Point")]),
   ("bbox", JVal.arr [JVal.uint 0, JVal.uint 0, JVal.uint 1, JVal.uint 1])]

/-- Catalog tree of depth three: the root links to a child catalog, the child
to a grandchild catalog, and the grandchild to one accepted item. -/
def deepTree : CatTree :=
  CatTree.catalogLink "child.json" "child"
    (CatTree.catalogLink "gchild.json" "gchild"
      (CatTree.itemLink "deep-item.json" goodItemDoc CatTree.nilL)
      CatTree.nilL)
    CatTree.nilL

/-- Three item links: one accepted, one rejected, one whose fetch raises. -/
def isolationLinks : CatTree :=
  CatTree.itemLink "i1.json" goodItemDoc
    (CatTree.itemLink "i2.json" rejectedItemDoc
      (CatTree.badLink "i3.json" "fetch failed" CatTree.nilL))

/-- An item document carrying geometry but no bbox: exactly one of the two
keys the spec reads disjunctively. -/
def geomOnlyDoc : JVal := JVal.obj
  [("id", JVal.str "itemC"),
   ("assets", JVal.obj [("data", JVal.obj [("href", JVal.str "c.las")])]),
   ("properties", JVal.obj [("datetime", JVal.str "2020-01-01T00:00:00Z")]),
   ("geometry", JVal.obj [("type", JVal.str "Point")])]

/-- An item document carrying a well-formed 4-element bbox and no geometry. -/
def bboxOnlyDoc : JVal := JVal.obj
  [("id", JVal.str "itemB"),
   ("assets", JVal.obj [("data", JVal.obj [("href", JVal.str "b.las")])]),
   ("properties", JVal.obj [("datetime", JVal.str "2020-01-01T00:00:00Z")]),
   ("bbox", JVal.arr [JVal.uint 0, JVal.uint 0, JVal.uint 1, JVal.uint 1])]

/-- Item filters with a non-empty 2D bounds box that overlaps the unit box. -/
def bboxFilters : ItemFilters :=
  { emptyItemFilters with bounds := SrsBounds.box2 ⟨0, 0, 2, 2⟩ }

/-- Reader arguments declaring the same driver twice. -/
def dupReaderArgs : JVal := JVal.arr
  [JVal.obj [("type", JVal.str "readers.las"), ("a", JVal.uint 1)],
   JVal.obj [("type", JVal.str "readers.las"), ("b", JVal.uint 2)]]

/-- An assets object with two candidate assets, in key order a then b. -/
def twoAssets : JVal := JVal.obj
  [("a", JVal.obj [("href", JVal.str "h1")]),
   ("b", JVal.obj [("href", JVal.str "h2")])]

/-- Properties holding a float-typed value 1.5 under the key k. -/
def floatProps : JVal := JVal.obj [("k", JVal.float (mkRat 15 10))]

/-- The resolved state of an accepted sample item: the result of running init
on goodItemDoc with accept-all filters. -/
def sampleAccepted : ItemState :=
  match Item.init sampleEnv emptyItemFilters (JVal.arr []) {}
      { m_json := goodItemDoc, m_path := "root.json" } with
  | .ok (_, st) => st
  | .error _ => {}

/-- Properties carrying a null datetime next to a well-formed start/end pair. -/
def nullDtBothProps : JVal := JVal.obj
  [("datetime", JVal.null),
   ("start_datetime", JVal.str "2000-01-01T00:00:00Z"),
   ("end_datetime", JVal.str "2001-01-01T00:00:00Z")]

/-- A structurally complete item document with nullDtBothProps as properties. -/
def nullDtBothDoc : JVal := JVal.obj
  [("id", JVal.str "itemD"),
   ("assets", JVal.obj [("data", JVal.obj [("href", JVal.str "d.las")])]),
   ("properties", nullDtBothProps),
   ("geometry", JVal.obj [("type", JVal.str "Point")]),
   ("bbox", JVal.arr [JVal.uint 0, JVal.uint 0, JVal.uint 1, JVal.uint 1])]

/-- A date-range filter far in the future of the sample interval. -/
def farRange : List JVal :=
  [JVal.arr [JVal.str "2050-01-01T00:00:00Z", JVal.str "2060-01-01T00:00:00Z"]]

/-- C1: the root item list after init and nested aggregation is claimed to
contain every Item accepted anywhere in the tree, grandchild depths included,
each exactly once.  On the depth-three sample tree the walker loses the item:
handleNested splices only the own lists of directly retained children and is
never invoked on non-root children, so the item accepted inside the grandchild
catalog never reaches the root list, while the spec-side transitive collection
holds exactly that one item. -/
theorem catalog_nested_aggregation_loses_deep_items :
    (Catalog.init sampleEnv emptyCatFilters (JVal.arr []) {} true "root" deepTree).map
        (fun r => r.m_itemList.length) = some 0 ∧
    (specAcceptedItems sampleEnv emptyCatFilters (JVal.arr []) {} deepTree).length = 1 :=
  ⟨rfl, rfl⟩

/-- C2: structural validation is claimed to pass on a document with id, assets,
properties, a valid datetime layout and exactly one of geometry or bbox.  The
source guard negates a disjunction instead of a conjunction, so a document
carrying geometry but no bbox raises a hard failure. -/
theorem structural_validation_rejects_geometry_without_bbox :
    validateForFilter geomOnlyDoc =
      Except.error "JSON object itemC does not contain one of geometry or bbox" :=
  rfl

/-- C3: the spatial filter is claimed to complete without a hard failure on an
item whose only footprint is a 4-element bbox and to decide by overlap.  On the
code a geometry-less item already raises inside validateForFilter (the same
conjunction slip as C2), and even behind that guard the bbox branch raises for
every array size because its size check is a tautology. -/
theorem spatial_filter_bbox_item_raises :
    Item.filter sampleEnv bboxFilters bboxOnlyDoc "b.json" =
      Except.error "JSON object itemB does not contain one of geometry or bbox" :=
  rfl

/-- Supporting fact for C3: the size guard of the bbox branch rejects every
size, 4 and 6 included, so the branch raises whenever it is reached with a
non-empty bounds filter and no geometry key. -/
theorem boundsSection_bbox_guard_tautology :
    boundsSection sampleEnv bboxFilters.bounds "itemB" bboxOnlyDoc =
      Except.error "bbox for itemB is not valid" ∧
    (∀ n : Nat, (n != 4 || n != 6) = true) := by
  refine ⟨rfl, fun n => ?_⟩
  by_cases h : n = 4
  · subst h; rfl
  · simp [h]

/-- C4: duplicate driver entries in the reader arguments are claimed to raise a
hard failure.  The guard tests contains on the raw argument array; on an array
nlohmann contains always returns false, so two entries declaring readers.las
pass and the merge succeeds. -/
theorem duplicate_driver_reader_args_accepted :
    jAt (jIdx dupReaderArgs 0) "type" = Except.ok (JVal.str "readers.las") ∧
    jAt (jIdx dupReaderArgs 1) "type" = Except.ok (JVal.str "readers.las") ∧
    isOkE (handleReaderArgs "readers.las" dupReaderArgs) = true :=
  ⟨rfl, rfl, rfl⟩

/-- C5 counterexample: with assets a and b both present and resolvable, the
claim says the first candidate name wins (driver drvA, path h1).  The loop has
no break, so the last present name wins: the code resolves to drvB and h2,
while the single-name run on a shows the first candidate alone yields drvA and
h1. -/
theorem asset_resolution_first_wins_false :
    resolveAsset twoDriverEnv "p.json" twoAssets ["a", "b"] = Except.ok ("drvB", "h2") ∧
    resolveAsset twoDriverEnv "p.json" twoAssets ["a"] = Except.ok ("drvA", "h1") ∧
    (("drvB", "h2") : String × String) ≠ ("drvA", "h1") :=
  ⟨rfl, rfl, by decide⟩

/-- Running a monadic fold over an appended list continues from the
accumulator the successful first part produced. -/
theorem foldlM_ok_append {α β : Type} (f : β → α → Except String β)
    (ns ms : List α) (b acc : β) (h : List.foldlM f b ns = Except.ok acc) :
    List.foldlM f b (ns ++ ms) = List.foldlM f acc ms := by
  induction ns generalizing b with
  | nil =>
      simp only [List.foldlM_nil] at h
      cases h
      simp
  | cons a as ih =>
      simp only [List.foldlM_cons] at h
      simp only [List.cons_append, List.foldlM_cons]
      cases hf : f b a with
      | error e =>
          rw [hf] at h
          exact Except.noConfusion (show Except.error e = Except.ok acc from h)
      | ok b1 =>
          rw [hf] at h
          exact ih b1 h

/-- C5 amended: asset resolution is last-wins in the caller-supplied order of
asset names: when the names before the last one resolve without raising, a
final candidate name present in assets determines the resolved driver and
asset path by itself, overwriting whatever the earlier names produced. -/
theorem asset_resolution_last_wins (env : Env) (p : String) (assets : JVal)
    (ns : List String) (n : String) (acc : String × String)
    (hok : resolveAsset env p assets ns = Except.ok acc)
    (hn : jContains assets n = true) :
    resolveAsset env p assets (ns ++ [n]) = resolveOneAsset env p assets n := by
  unfold resolveAsset at hok ⊢
  rw [foldlM_ok_append _ ns [n] _ acc hok]
  simp only [List.foldlM_cons, List.foldlM_nil, hn, if_pos]
  cases hr : resolveOneAsset env p assets n <;> simp [hr, Except.bind]

/-- Witness for the amended C5 on the two-asset sample: appending the present
name b makes the resolution ignore the result name a had produced. -/
theorem asset_resolution_last_wins_witness :
    resolveAsset twoDriverEnv "p.json" twoAssets (["a"] ++ ["b"]) =
      resolveOneAsset twoDriverEnv "p.json" twoAssets "b" :=
  asset_resolution_last_wins twoDriverEnv "p.json" twoAssets ["a"] "b"
    ("drvA", "h1") rfl rfl

/-- C7: the float property comparison is claimed to compare in the native
floating-point representation, rejecting 1.5 against a desired 1.2.  The
source declares both locals as int, truncating 1.5 and 1.2 to 1 before the
comparison, so the match succeeds even though the rationals differ. -/
theorem float_property_match_truncates :
    matchProperty "k" (JVal.float (mkRat 12 10)) floatProps JType.float =
      Except.ok true ∧
    mkRat 15 10 ≠ mkRat 12 10 :=
  ⟨rfl, by decide⟩

/-- C8: copying an accepted item is claimed to preserve driver, asset path and
reader options.  The copy constructor omits m_assetPath from its initializer
list: on the accepted sample item the copy keeps the driver and the options
but its asset path is the empty string instead of the resolved a.las. -/
theorem item_copy_loses_asset_path :
    (Item.copy sampleAccepted).m_driver = sampleAccepted.m_driver ∧
    (Item.copy sampleAccepted).m_readerOptions = sampleAccepted.m_readerOptions ∧
    sampleAccepted.m_assetPath = "a.las" ∧
    (Item.copy sampleAccepted).m_assetPath = "" ∧
    ("a.las" : String) ≠ "" :=
  ⟨rfl, rfl, rfl, rfl, by decide⟩

/-- With only item tasks in the link list, the walker fills exactly the item
accumulator and the error accumulator, in link order: accepted items land in
the item list, every raising task contributes one error entry, and no child
node is retained. -/
theorem runLinks_allItemTasks (env : Env) (fi : CatFilters) (args : JVal)
    (su : SchemaUrls) (links : CatTree) (h : allItemTasks links = true) :
    runLinks env fi args su links =
      ⟨acceptedOf env fi args su links, [], errorEntriesOf env fi args su links⟩ := by
  induction links with
  | nilL => rfl
  | itemLink p doc rest ih =>
      have hrest : allItemTasks rest = true := h
      cases hinit : Item.init env fi.itemFilters args su { m_json := doc, m_path := p } with
      | ok v =>
          obtain ⟨b, st⟩ := v
          cases b <;>
            simp [runLinks, acceptedOf, errorEntriesOf, hinit, ih hrest]
      | error msg =>
          simp [runLinks, acceptedOf, errorEntriesOf, hinit, ih hrest]
  | badLink p msg rest ih =>
      have hrest : allItemTasks rest = true := h
      simp [runLinks, acceptedOf, errorEntriesOf, ih hrest]
  | otherLink rest ih => simp [allItemTasks] at h
  | catalogLink p id links rest ih1 ih2 => simp [allItemTasks] at h
  | collectionLink p id links rest ih1 ih2 => simp [allItemTasks] at h

/-- On item tasks the error list gains exactly one entry per raising task. -/
theorem errorEntries_length_eq_raises (env : Env) (fi : CatFilters) (args : JVal)
    (su : SchemaUrls) (links : CatTree) (h : allItemTasks links = true) :
    (errorEntriesOf env fi args su links).length = raisesCount env fi args su links := by
  induction links with
  | nilL => rfl
  | itemLink p doc rest ih =>
      have hrest : allItemTasks rest = true := h
      cases hinit : Item.init env fi.itemFilters args su { m_json := doc, m_path := p } with
      | ok v =>
          obtain ⟨b, st⟩ := v
          cases b <;> simp [errorEntriesOf, raisesCount, hinit, isOkE, ih hrest]
      | error msg =>
          simp [errorEntriesOf, raisesCount, hinit, isOkE, ih hrest]
          omega
  | badLink p msg rest ih =>
      have hrest : allItemTasks rest = true := h
      simp [errorEntriesOf, raisesCount, ih hrest]
      omega
  | otherLink rest ih => simp [allItemTasks] at h
  | catalogLink p id links rest ih1 ih2 => simp [allItemTasks] at h
  | collectionLink p id links rest ih1 ih2 => simp [allItemTasks] at h

/-- Every item task either raises or reaches a normal outcome, so the two
counts partition the link count. -/
theorem normal_plus_raises (env : Env) (fi : CatFilters) (args : JVal)
    (su : SchemaUrls) (links : CatTree) (h : allItemTasks links = true) :
    normalCount env fi args su links + raisesCount env fi args su links =
      linkCount links := by
  induction links with
  | nilL => rfl
  | itemLink p doc rest ih =>
      have hrest : allItemTasks rest = true := h
      have := ih hrest
      cases hok : isOkE (Item.init env fi.itemFilters args su { m_json := doc, m_path := p }) <;>
        simp [normalCount, raisesCount, linkCount, hok] <;> omega
  | badLink p msg rest ih =>
      have hrest : allItemTasks rest = true := h
      have := ih hrest
      simp [normalCount, raisesCount, linkCount]
      omega
  | otherLink rest ih => simp [allItemTasks] at h
  | catalogLink p id links rest ih1 ih2 => simp [allItemTasks] at h
  | collectionLink p id links rest ih1 ih2 => simp [allItemTasks] at h

/-- C6: in a catalog whose links are item tasks of which exactly one raises
(in its fetch or in its per-item processing), root init completes normally,
the other links are each processed to a normal accepted-or-rejected outcome
(the item list is exactly the accepted items in order, nothing lost or
duplicated), and exactly one (location, message) entry reaches the error
list. -/
theorem catalog_error_isolation (env : Env) (fi : CatFilters) (args : JVal)
    (su : SchemaUrls) (id : String) (links : CatTree)
    (hAll : allItemTasks links = true)
    (hOne : raisesCount env fi args su links = 1) :
    Catalog.init env fi args su true id links =
      some ⟨acceptedOf env fi args su links, [], errorEntriesOf env fi args su links⟩ ∧
    (errorEntriesOf env fi args su links).length = 1 ∧
    normalCount env fi args su links + 1 = linkCount links := by
  refine ⟨?_, ?_, ?_⟩
  · unfold Catalog.init
    simp [Catalog.filter, runLinks_allItemTasks env fi args su links hAll,
      Catalog.handleNested]
  · rw [errorEntries_length_eq_raises env fi args su links hAll, hOne]
  · have := normal_plus_raises env fi args su links hAll
    omega

/-- Witness for C6 on the three-link sample: one accepted item, one silent
rejection, one fetch failure; the error list ends up with exactly one entry
and the two healthy links both reach their normal outcome. -/
theorem catalog_error_isolation_witness :
    Catalog.init sampleEnv emptyCatFilters (JVal.arr []) {} true "root" isolationLinks =
      some ⟨acceptedOf sampleEnv emptyCatFilters (JVal.arr []) {} isolationLinks, [],
        errorEntriesOf sampleEnv emptyCatFilters (JVal.arr []) {} isolationLinks⟩ ∧
    (errorEntriesOf sampleEnv emptyCatFilters (JVal.arr []) {} isolationLinks).length = 1 ∧
    normalCount sampleEnv emptyCatFilters (JVal.arr []) {} isolationLinks + 1 =
      linkCount isolationLinks :=
  catalog_error_isolation sampleEnv emptyCatFilters (JVal.arr []) {} "root"
    isolationLinks rfl rfl

/-- Binding a successful Except value just applies the continuation. -/
theorem exceptOkBind {α β : Type} (a : α) (f : α → Except String β) :
    (Except.ok a >>= f) = f a := rfl

/-- The datetime-branch loop of the date filter lowers the flag exactly when
some user range contains the item instant under the string order. -/
theorem dateStepSingle_fold (d : String) (ranges : List (String × String)) (b : Bool) :
    List.foldlM (dateStepSingle d) b
        (ranges.map fun r => JVal.arr [JVal.str r.1, JVal.str r.2]) =
      Except.ok (b && !(ranges.any fun r => strLeB r.1 d && strLeB d r.2)) := by
  induction ranges generalizing b with
  | nil =>
      simp only [List.map_nil, List.foldlM_nil, List.any_nil, Bool.not_false, Bool.and_true]
      rfl
  | cons r rs ih =>
      simp only [List.map_cons, List.foldlM_cons]
      have hstep : dateStepSingle d b (JVal.arr [JVal.str r.1, JVal.str r.2]) =
          Except.ok (if strLeB r.1 d && strLeB d r.2 then false else b) := rfl
      rw [hstep]
      have hbind : (Except.ok (if strLeB r.1 d && strLeB d r.2 then false else b) >>=
          fun flag => List.foldlM (dateStepSingle d) flag
            (rs.map fun r => JVal.arr [JVal.str r.1, JVal.str r.2])) =
          List.foldlM (dateStepSingle d)
            (if strLeB r.1 d && strLeB d r.2 then false else b)
            (rs.map fun r => JVal.arr [JVal.str r.1, JVal.str r.2]) := rfl
      rw [hbind, ih]
      cases hc : strLeB r.1 d && strLeB d r.2 <;> cases b <;> simp [hc]

/-- C9: for an item carrying the instant d under the datetime property, the
date filter accepts (does not prune) against a non-empty list of range pairs
exactly when some pair (a, b) contains d inclusively, a <= d <= b under the
string comparison the source performs on the date strings. -/
theorem date_filter_interval_containment (d : String) (pkvs : List (String × JVal))
    (ranges : List (String × String))
    (hdt : lookupKey pkvs "datetime" = some (JVal.str d))
    (hne : ranges ≠ []) :
    (dateSection (ranges.map fun r => JVal.arr [JVal.str r.1, JVal.str r.2])
        (JVal.obj pkvs) = Except.ok false) ↔
      ∃ r ∈ ranges, strLeB r.1 d = true ∧ strLeB d r.2 = true := by
  have hcont : jContains (JVal.obj pkvs) "datetime" = true := by
    simp [jContains, hdt]
  have hat : jAtD (JVal.obj pkvs) "datetime" = JVal.str d := by
    simp [jAtD, hdt]
  have hmapne : ((ranges.map fun r => JVal.arr [JVal.str r.1, JVal.str r.2]).isEmpty) = false := by
    cases ranges with
    | nil => exact absurd rfl hne
    | cons x xs => rfl
  unfold dateSection
  rw [hmapne, hcont, hat]
  simp only [Bool.false_eq_true, if_false, JVal.typeOf, beq_self_eq_true]
  simp only [getStr, dateStepSingle_fold, JType.string, exceptOkBind]
  simp [List.any_eq_true, Bool.and_eq_true]

/-- Witness for C9: the instant 2020-06-15 against the single range from
2019-01-01 to 2021-01-01 is accepted by the date filter. -/
theorem date_filter_interval_containment_witness :
    dateSection ([(("2019-01-01", "2021-01-01") : String × String)].map fun r =>
        JVal.arr [JVal.str r.1, JVal.str r.2])
      (JVal.obj [("datetime", JVal.str "2020-06-15")]) = Except.ok false :=
  (date_filter_interval_containment "2020-06-15" [("datetime", JVal.str "2020-06-15")]
      [("2019-01-01", "2021-01-01")] rfl (by simp)).mpr
    ⟨("2019-01-01", "2021-01-01"), List.Mem.head _, rfl, rfl⟩

/-- C10 counterexample: the claim covers every item whose properties hold a
null datetime and says the date filter is then skipped entirely.  When the
properties also carry a start/end pair the source falls into the interval
branch: against a disjoint future range the item is pruned on dates, and the
full filter rejects it, although structural validation passed. -/
theorem null_datetime_with_interval_not_skipped :
    validateForFilter nullDtBothDoc = Except.ok () ∧
    dateSection farRange nullDtBothProps = Except.ok true ∧
    Item.filter sampleEnv { emptyItemFilters with dates := farRange }
        nullDtBothDoc "d.json" = Except.ok (true, "readers.las", "d.las") :=
  ⟨rfl, rfl, rfl⟩

/-- C10 amended: for an item whose properties carry datetime as JSON null, or
no datetime and only one of start_datetime and end_datetime, and which does not
carry the full start/end pair, structural validation passes (given the other
required keys) and the date filter is skipped for every date-range list, so
the item is neither rejected on dates nor a source of a hard failure there. -/
theorem degenerate_datetime_skips_date_filter
    (kvs pkvs : List (String × JVal)) (i : String)
    (hid : lookupKey kvs "id" = some (JVal.str i))
    (hassets : (lookupKey kvs "assets").isSome = true)
    (hprops : lookupKey kvs "properties" = some (JVal.obj pkvs))
    (hgeom : (lookupKey kvs "geometry").isSome = true)
    (hbbox : (lookupKey kvs "bbox").isSome = true)
    (hdt : lookupKey pkvs "datetime" = some JVal.null ∨
      (lookupKey pkvs "datetime" = Option.none ∧
        ((lookupKey pkvs "start_datetime").isSome = true ∨
          (lookupKey pkvs "end_datetime").isSome = true)))
    (hnotboth : ¬((lookupKey pkvs "start_datetime").isSome = true ∧
        (lookupKey pkvs "end_datetime").isSome = true)) :
    validateForFilter (JVal.obj kvs) = Except.ok () ∧
    (∀ ds : List JVal, dateSection ds (JVal.obj pkvs) = Except.ok false) := by
  constructor
  · unfold validateForFilter
    have h1 : jContains (JVal.obj kvs) "id" = true := by
      simp [jContains, hid]
    have h2 : jAt (JVal.obj kvs) "id" = Except.ok (JVal.str i) := by
      simp [jAt, hid]
    have h3 : jContains (JVal.obj kvs) "assets" = true := by
      simp [jContains, hassets]
    have h4 : jContains (JVal.obj kvs) "properties" = true := by
      simp [jContains]
      rw [hprops]; rfl
    have h5 : jContains (JVal.obj kvs) "geometry" = true := by
      simp [jContains, hgeom]
    have h6 : jContains (JVal.obj kvs) "bbox" = true := by
      simp [jContains, hbbox]
    have h7 : jAtD (JVal.obj kvs) "properties" = JVal.obj pkvs := by
      simp [jAtD, hprops]
    rw [h1, h2]
    simp only [exceptOkBind, getStr]
    rw [h3, h4, h5, h6, h7]
    have h8 : (!(jContains (JVal.obj pkvs) "datetime") &&
        (!(jContains (JVal.obj pkvs) "start_datetime") &&
         !(jContains (JVal.obj pkvs) "end_datetime"))) = false := by
      rcases hdt with hnull | ⟨hnone, hor⟩
      · simp [jContains, hnull]
      · rcases hor with hs | he
        · simp [jContains, hs]
        · simp [jContains, he]
    simp [h8]
  · intro ds
    unfold dateSection
    by_cases hemp : ds.isEmpty = true
    · simp [hemp]
    · have hc1 : (jContains (JVal.obj pkvs) "datetime" &&
          !((jAtD (JVal.obj pkvs) "datetime").typeOf == JType.null)) = false := by
        rcases hdt with hnull | ⟨hnone, _⟩
        · have : jAtD (JVal.obj pkvs) "datetime" = JVal.null := by
            simp [jAtD, hnull]
          simp [this, JVal.typeOf]
        · simp [jContains, hnone]
      have hc2 : (jContains (JVal.obj pkvs) "start_datetime" &&
          jContains (JVal.obj pkvs) "end_datetime") = false := by
        rcases hb : (lookupKey pkvs "start_datetime").isSome with _ | _
        · simp [jContains, hb]
        · have he : (lookupKey pkvs "end_datetime").isSome = false := by
            by_contra hx
            exact hnotboth ⟨hb, by
              revert hx
              cases (lookupKey pkvs "end_datetime").isSome <;> simp⟩
          simp [jContains, hb, he]
      simp [hemp, hc1, hc2]

/-- Properties whose only date key is a null datetime. -/
def nullOnlyPkvs : List (String × JVal) := [("datetime", JVal.null)]

/-- A structurally complete item document around nullOnlyPkvs. -/
def nullOnlyKvs : List (String × JVal) :=
  [("id", JVal.str "itemF"),
   ("assets", JVal.obj [("data", JVal.obj [("href", JVal.str "f.las")])]),
   ("properties", JVal.obj nullOnlyPkvs),
   ("geometry", JVal.obj [("type", JVal.str "Point")]),
   ("bbox", JVal.arr [JVal.uint 0, JVal.uint 0, JVal.uint 1, JVal.uint 1])]

/-- Witness for the amended C10 on an item whose only date key is a null
datetime: validation passes and no date-range list ever prunes it. -/
theorem degenerate_datetime_skips_date_filter_witness :
    validateForFilter (JVal.obj nullOnlyKvs) = Except.ok () ∧
    (∀ ds : List JVal, dateSection ds (JVal.obj nullOnlyPkvs) = Except.ok false) :=
  degenerate_datetime_skips_date_filter nullOnlyKvs nullOnlyPkvs "itemF"
    rfl rfl rfl rfl rfl (Or.inl rfl) (by decide)

end StacSpec
